import Mathlib

/-!
Verification of the Tech Haven web client (`src/frontend/src/App.js`).

The development shallowly embeds the pure state logic of the client:

* the cart reducer (`cartReducer`, App.js lines 16-44) over a cart state
  holding a list of cart line items;
* the auth-provider session logic (`fetchUser`, `login`, `register`,
  App.js lines 47-98), with network results passed in explicitly as a
  `FetchResult` and the caught/uncaught error behaviour reflected in an
  `Except` return type;
* the Products-page filter update (`handleFilterChange`, App.js lines
  386-395) over a JavaScript-object model of the filter map
  (unique keys, insertion order);
* the Header cart counter (App.js line 187) and the Home page
  featured-product selection (App.js line 333).

JavaScript numbers used as quantities are modelled as `Int`; product
identifiers and string fields as `String`.  Record types model only the
fields that the embedded components read.
-/

namespace TechHaven

/-- A cart line item as dispatched by `addToCart`
(`{ product_id, quantity }`). -/
structure CartItem where
  product_id : String
  quantity : Int
  deriving Repr, DecidableEq

/-- The cart reducer state shape `{ items: [...] }` (initial state
`{ items: [] }` in `AppProvider`). -/
structure CartState where
  items : List CartItem
  deriving Repr, DecidableEq

/-- Actions accepted by `cartReducer`.  `SET_CART`'s payload is the server
response whose `items` field may be absent or null (`none`).  `unknown`
stands for any other action type, handled by the reducer's default case. -/
inductive CartAction where
  | SET_CART (payload : Option (List CartItem))
  | ADD_ITEM (payload : CartItem)
  | REMOVE_ITEM (product_id : String)
  | UPDATE_QUANTITY (product_id : String) (quantity : Int)
  | CLEAR_CART
  | unknown
  deriving Repr, DecidableEq

/-- Embedding of `cartReducer` (App.js lines 16-44).

* `SET_CART`: `{ ...state, items: action.payload.items || [] }`.
* `ADD_ITEM`: `findIndex` on `product_id`; when found, that line's
  quantity is increased on a copied array; otherwise the payload is
  appended.  (The `none` inner branch is unreachable: `findIndex` only
  returns an in-bounds index.)
* `REMOVE_ITEM`: `filter(item => item.product_id !== action.payload)`.
* `UPDATE_QUANTITY`: `map`, replacing the quantity of matching lines.
* `CLEAR_CART`: `{ ...state, items: [] }`.
* default: returns the state unchanged. -/
def cartReducer (state : CartState) (action : CartAction) : CartState :=
  match action with
  | .SET_CART payload => { state with items := payload.getD [] }
  | .ADD_ITEM payload =>
      match state.items.findIdx? (fun item => item.product_id == payload.product_id) with
      | some existingIndex =>
          match state.items[existingIndex]? with
          | some existing =>
              { state with
                items := state.items.set existingIndex
                  { existing with quantity := existing.quantity + payload.quantity } }
          | none => state
      | none => { state with items := state.items ++ [payload] }
  | .REMOVE_ITEM pid =>
      { state with items := state.items.filter (fun item => item.product_id != pid) }
  | .UPDATE_QUANTITY pid q =>
      { state with
        items := state.items.map (fun item =>
          if item.product_id == pid then { item with quantity := q } else item) }
  | .CLEAR_CART => { state with items := [] }
  | .unknown => state

/-- Recursive description of the `ADD_ITEM` branch: increment the first
line whose `product_id` matches, else append.  Proved equal to the
`findIndex`-based branch of `cartReducer` in `cartReducer_ADD_ITEM_eq`. -/
def addItemMerge : List CartItem → CartItem → List CartItem
  | [], p => [p]
  | item :: rest, p =>
      if item.product_id == p.product_id then
        { item with quantity := item.quantity + p.quantity } :: rest
      else
        item :: addItemMerge rest p

/-- The at-most-one-cart-line-per-product invariant: the `product_id`
fields of the cart lines are pairwise distinct. -/
def nodupPids (items : List CartItem) : Prop :=
  (items.map CartItem.product_id).Nodup

instance (items : List CartItem) : Decidable (nodupPids items) :=
  inferInstanceAs (Decidable ((items.map CartItem.product_id).Nodup))

/-- Embedding of the Header's cart counter (App.js line 187):
`cartState.items.reduce((total, item) => total + item.quantity, 0)`. -/
def cartItemCount (cartState : CartState) : Int :=
  cartState.items.foldl (fun total item => total + item.quantity) 0

/-- A catalog product; only the fields read by the embedded components
are modelled (the source record also carries brand, price, rating,
images etc., none of which the verified logic inspects). -/
structure Product where
  id : String
  name : String
  featured : Bool
  deriving Repr, DecidableEq

/-- Embedding of the Home page's featured selection (App.js line 333):
`products.filter(p => p.featured).slice(0, 3)`. -/
def featuredProducts (products : List Product) : List Product :=
  (products.filter (fun p => p.featured)).take 3

/-- JavaScript-object model of the ProductsPage `filters` state: a
key-value list with unique keys in insertion order.  `objDelete` models
`delete obj[key]`. -/
def objDelete (m : List (String × String)) (k : String) : List (String × String) :=
  m.filter (fun kv => kv.1 != k)

/-- Model of `obj[key] = value` on a JavaScript object: overwrite in
place when the key exists, else append the new key at the end. -/
def objSet (m : List (String × String)) (k v : String) : List (String × String) :=
  if m.any (fun kv => kv.1 == k) then
    m.map (fun kv => if kv.1 == k then (k, v) else kv)
  else
    m ++ [(k, v)]

/-- Embedding of `handleFilterChange` (App.js lines 386-395): copy the
filter object, delete the key when the new value is the empty string,
otherwise set it; the result becomes the new filter state and is the
exact argument passed to `fetchProducts`. -/
def handleFilterChange (filters : List (String × String)) (k v : String) :
    List (String × String) :=
  if v = "" then objDelete filters k else objSet filters k v

/-- The signed-in user's profile as used by the client (the `/api/me`
response body; the Header reads `user.full_name`). -/
structure UserProfile where
  email : String
  full_name : String
  deriving Repr, DecidableEq

/-- Outcome of an awaited HTTP request: a response body, or a thrown
error (network failure, non-2xx status, and so on). -/
inductive FetchResult (α : Type) where
  | success (data : α)
  | failure (err : String)
  deriving Repr, DecidableEq

/-- Client auth/session state: the `token` entry of the browser's local
storage, the axios `Authorization` default header, and the in-memory
`user` and `loading` states of `AuthProvider`. -/
structure AuthState where
  storedToken : Option String
  authHeader : Option String
  user : Option UserProfile
  loading : Bool
  deriving Repr, DecidableEq

/-- Embedding of `fetchUser` (App.js lines 61-71).  The awaited GET
`/api/me` outcome is passed in as `r`.  On success the profile is
stored; on failure the stored token and the default header are removed
(`user` is not written on that path).  The body is a
try/catch/finally, so the function always returns normally
(`Except.ok`): a failure is never re-thrown to the caller. -/
def fetchUser (s : AuthState) (r : FetchResult UserProfile) : Except String AuthState :=
  match r with
  | .success data => .ok { s with user := some data, loading := false }
  | .failure _ => .ok { s with storedToken := none, authHeader := none, loading := false }

/-- Embedding of the `AuthProvider` mount effect (App.js lines 47-59):
state starts as `user = null`, `loading = true`, with the persisted
token read from local storage; when a token exists the `Authorization`
header is set and `fetchUser` runs, otherwise loading just ends. -/
def authProviderInit (token : Option String) (r : FetchResult UserProfile) :
    Except String AuthState :=
  match token with
  | some t =>
      fetchUser
        { storedToken := some t, authHeader := some ("Bearer " ++ t),
          user := none, loading := true } r
  | none =>
      .ok { storedToken := none, authHeader := none, user := none, loading := false }

/-- Embedding of `login` (App.js lines 73-80).  The POST `/api/login`
outcome is passed in as `r`; an error from the POST propagates to the
caller (no try/catch here).  On success the returned `access_token` is
persisted, the header is set, and `fetchUser` refreshes the profile. -/
def login (s : AuthState) (r : FetchResult String) (pr : FetchResult UserProfile) :
    Except String AuthState :=
  match r with
  | .failure err => .error err
  | .success access_token =>
      fetchUser
        { s with
          storedToken := some access_token,
          authHeader := some ("Bearer " ++ access_token) } pr

/-- The registration form data (`RegisterPage` state: email, password,
full name, optional phone). -/
structure RegisterData where
  email : String
  password : String
  full_name : String
  phone : String
  deriving Repr, DecidableEq

/-- Embedding of `register` (App.js lines 82-85): POST the form data to
`/api/register` (the endpoint is passed in as a function) and return the
response body.  The function contains no other statement: local storage,
the default header and the user state are untouched. -/
def register (endpoint : RegisterData → UserProfile) (s : AuthState)
    (userData : RegisterData) : AuthState × UserProfile :=
  (s, endpoint userData)

/-! ## Helper lemmas -/

theorem cartReducer_ADD_ITEM_eq (items : List CartItem) (p : CartItem) :
    (cartReducer ⟨items⟩ (.ADD_ITEM p)).items = addItemMerge items p := by
  induction items with
  | nil => rfl
  | cons a rest ih =>
      by_cases ha : (a.product_id == p.product_id) = true
      · simp [cartReducer, addItemMerge, List.findIdx?_cons, ha]
      · rw [Bool.not_eq_true] at ha
        simp only [cartReducer, List.findIdx?_cons, ha, Bool.false_eq_true, if_false,
          List.findIdx?_succ, addItemMerge] at *
        cases h2 : rest.findIdx? (fun item => item.product_id == p.product_id) with
        | none =>
            rw [h2] at ih
            simp only [h2, Option.map_none'] at ih ⊢
            simp [ih]
        | some j =>
            rw [h2] at ih
            simp only [h2, Option.map_some', List.getElem?_cons_succ,
              List.set_cons_succ] at ih ⊢
            cases h3 : rest[j]? with
            | none => simp [h3] at ih ⊢; exact ih
            | some existing => simp [h3] at ih ⊢; exact ih

theorem addItemMerge_of_forall_ne (items : List CartItem) (p : CartItem)
    (h : ∀ it ∈ items, it.product_id ≠ p.product_id) :
    addItemMerge items p = items ++ [p] := by
  induction items with
  | nil => rfl
  | cons a rest ih =>
      have ha : (a.product_id == p.product_id) = false :=
        beq_eq_false_iff_ne.mpr (h a (List.mem_cons_self a rest))
      simp [addItemMerge, ha, ih fun it hit => h it (List.mem_cons_of_mem a hit)]

theorem addItemMerge_append_same (items : List CartItem) (P : String) (q q' : Int)
    (h : ∀ it ∈ items, it.product_id ≠ P) :
    addItemMerge (items ++ [⟨P, q⟩]) ⟨P, q'⟩ = items ++ [⟨P, q + q'⟩] := by
  induction items with
  | nil => simp [addItemMerge]
  | cons a rest ih =>
      have ha : (a.product_id == P) = false :=
        beq_eq_false_iff_ne.mpr (h a (List.mem_cons_self a rest))
      simp [addItemMerge, ha, ih fun it hit => h it (List.mem_cons_of_mem a hit)]

theorem mem_map_pid_addItemMerge {x : String} (items : List CartItem) (p : CartItem)
    (hx : x ∈ (addItemMerge items p).map CartItem.product_id) :
    x ∈ items.map CartItem.product_id ∨ x = p.product_id := by
  induction items with
  | nil => simpa [addItemMerge] using hx
  | cons a rest ih =>
      by_cases ha : (a.product_id == p.product_id) = true
      · simp only [addItemMerge, ha, if_true, List.map_cons, List.mem_cons] at hx ⊢
        exact Or.inl hx
      · rw [Bool.not_eq_true] at ha
        simp only [addItemMerge, ha, Bool.false_eq_true, if_false, List.map_cons,
          List.mem_cons] at hx ⊢
        rcases hx with hx | hx
        · exact Or.inl (Or.inl hx)
        · rcases ih hx with h' | h'
          · exact Or.inl (Or.inr h')
          · exact Or.inr h'

theorem nodupPids_addItemMerge (items : List CartItem) (p : CartItem)
    (h : nodupPids items) : nodupPids (addItemMerge items p) := by
  induction items with
  | nil => simp [nodupPids, addItemMerge]
  | cons a rest ih =>
      rw [nodupPids, List.map_cons, List.nodup_cons] at h
      by_cases ha : (a.product_id == p.product_id) = true
      · simpa [nodupPids, addItemMerge, ha, List.nodup_cons] using h
      · rw [Bool.not_eq_true] at ha
        have ha' : a.product_id ≠ p.product_id := by
          simpa using (beq_eq_false_iff_ne (a := a.product_id)).mp ha
        rw [nodupPids, addItemMerge]
        simp only [ha, Bool.false_eq_true, if_false, List.map_cons, List.nodup_cons]
        refine ⟨fun hmem => ?_, ih h.2⟩
        rcases mem_map_pid_addItemMerge rest p hmem with h' | h'
        · exact h.1 h'
        · exact ha' h'

theorem foldl_add_quantity (l : List CartItem) (a : Int) :
    l.foldl (fun total item => total + item.quantity) a
      = a + (l.map CartItem.quantity).sum := by
  induction l generalizing a with
  | nil => simp
  | cons x xs ih => simp [List.foldl_cons, ih, add_assoc]

/-! ## Claims -/

/-- Claim C1: for every cart state and every `ADD_ITEM` action, the
reducer behaves as a merge.  When `findIndex` locates a line with the
payload's `product_id`, the new item list is the old one with only that
line replaced — same product, quantity increased by the payload's
quantity — so the number of lines is unchanged (a `List.set`).
Otherwise the payload is appended.  In particular, dispatching
`ADD_ITEM` for product `P` with quantity 1 twice, starting from a state
with no line for `P`, yields the old lines plus exactly one line for `P`
with quantity 2. -/
theorem cartReducer_ADD_ITEM_merge_spec (s : CartState) (p : CartItem) (P : String) :
    (∀ i (hi : i < s.items.length),
        s.items.findIdx? (fun it => it.product_id == p.product_id) = some i →
        (cartReducer s (.ADD_ITEM p)).items =
          s.items.set i { s.items[i] with quantity := s.items[i].quantity + p.quantity })
    ∧ (s.items.findIdx? (fun it => it.product_id == p.product_id) = none →
        (cartReducer s (.ADD_ITEM p)).items = s.items ++ [p])
    ∧ ((∀ it ∈ s.items, it.product_id ≠ P) →
        (cartReducer (cartReducer s (.ADD_ITEM ⟨P, 1⟩)) (.ADD_ITEM ⟨P, 1⟩)).items =
            s.items ++ [⟨P, 2⟩]
          ∧ (cartReducer (cartReducer s (.ADD_ITEM ⟨P, 1⟩)) (.ADD_ITEM ⟨P, 1⟩)).items.filter
              (fun it => it.product_id == P) = [⟨P, 2⟩]) := by
  refine ⟨?_, ?_, ?_⟩
  · intro i hi h
    simp [cartReducer, h, List.getElem?_eq_getElem hi]
  · intro h
    simp [cartReducer, h]
  · intro h
    have h1 : (cartReducer s (.ADD_ITEM ⟨P, 1⟩)).items = s.items ++ [⟨P, 1⟩] := by
      rw [cartReducer_ADD_ITEM_eq s.items ⟨P, 1⟩]
      exact addItemMerge_of_forall_ne s.items ⟨P, 1⟩ h
    have h2 : (cartReducer (cartReducer s (.ADD_ITEM ⟨P, 1⟩)) (.ADD_ITEM ⟨P, 1⟩)).items =
        s.items ++ [⟨P, 2⟩] := by
      rw [cartReducer_ADD_ITEM_eq (cartReducer s (.ADD_ITEM ⟨P, 1⟩)).items ⟨P, 1⟩, h1,
        addItemMerge_append_same s.items P 1 1 h]
      norm_num
    refine ⟨h2, ?_⟩
    rw [h2, List.filter_append, List.filter_eq_nil_iff.mpr ?_, List.nil_append]
    · simp
    · intro it hit
      simpa using h it hit

theorem cartReducer_ADD_ITEM_merge_spec_witness :
    ((([⟨"a", 1⟩, ⟨"b", 2⟩] : List CartItem).findIdx?
        (fun it => it.product_id == "b")) = some 1) ∧
    (cartReducer ⟨[⟨"a", 1⟩, ⟨"b", 2⟩]⟩ (.ADD_ITEM ⟨"b", 3⟩)).items = [⟨"a", 1⟩, ⟨"b", 5⟩] ∧
    (cartReducer (cartReducer ⟨[⟨"a", 1⟩, ⟨"b", 2⟩]⟩ (.ADD_ITEM ⟨"c", 1⟩))
        (.ADD_ITEM ⟨"c", 1⟩)).items = [⟨"a", 1⟩, ⟨"b", 2⟩] ++ [⟨"c", 2⟩] := by
  refine ⟨by decide, ?_,
    ((cartReducer_ADD_ITEM_merge_spec ⟨[⟨"a", 1⟩, ⟨"b", 2⟩]⟩ ⟨"c", 1⟩ "c").2.2
      (by decide)).1⟩
  have h := (cartReducer_ADD_ITEM_merge_spec ⟨[⟨"a", 1⟩, ⟨"b", 2⟩]⟩ ⟨"b", 3⟩ "c").1 1
    (by decide) (by decide)
  rw [h]; decide

/-- Claim C2 (amended): four of the five transitions — `ADD_ITEM`,
`REMOVE_ITEM`, `UPDATE_QUANTITY`, `CLEAR_CART` — preserve the
pairwise-distinct-product_id invariant for every payload; `SET_CART`
preserves it only under the extra assumption that the payload's item
list itself has pairwise-distinct product ids (it is copied wholesale,
so a duplicated payload breaks the invariant — see the
counterexample). -/
theorem cartReducer_preserves_nodupPids (s : CartState) (a : CartAction)
    (hs : nodupPids s.items)
    (hset : ∀ l, a = .SET_CART (some l) → nodupPids l) :
    nodupPids (cartReducer s a).items := by
  cases a with
  | SET_CART payload =>
      cases payload with
      | none => simp [cartReducer, nodupPids]
      | some l => simpa [cartReducer, nodupPids] using hset l rfl
  | ADD_ITEM p =>
      have h := cartReducer_ADD_ITEM_eq s.items p
      have hs' : cartReducer s (.ADD_ITEM p) = cartReducer ⟨s.items⟩ (.ADD_ITEM p) := rfl
      rw [nodupPids, hs', h]
      exact nodupPids_addItemMerge s.items p hs
  | REMOVE_ITEM pid =>
      exact List.Nodup.sublist (List.Sublist.map _ (List.filter_sublist _)) hs
  | UPDATE_QUANTITY pid q =>
      have hmap : ((s.items.map (fun item =>
          if item.product_id == pid then { item with quantity := q } else item)).map
            CartItem.product_id) = s.items.map CartItem.product_id := by
        rw [List.map_map]
        apply List.map_congr_left
        intro it _
        by_cases h : (it.product_id == pid) = true <;> simp [Function.comp, h]
      have hitems : (cartReducer s (.UPDATE_QUANTITY pid q)).items
          = s.items.map (fun item =>
              if item.product_id == pid then { item with quantity := q } else item) := rfl
      rw [nodupPids, hitems, hmap]
      exact hs
  | CLEAR_CART => simp [cartReducer, nodupPids]
  | unknown => exact hs

theorem cartReducer_preserves_nodupPids_witness :
    nodupPids [⟨"a", 1⟩, ⟨"b", 2⟩] ∧
      nodupPids (cartReducer ⟨[⟨"a", 1⟩, ⟨"b", 2⟩]⟩ (.ADD_ITEM ⟨"a", 5⟩)).items :=
  ⟨by decide,
    cartReducer_preserves_nodupPids ⟨[⟨"a", 1⟩, ⟨"b", 2⟩]⟩ (.ADD_ITEM ⟨"a", 5⟩)
      (by decide) (fun l h => by cases h)⟩

/-- Claim C2, counterexample to the claim as stated: starting from the
empty cart (whose item list trivially has distinct product ids), the
`SET_CART` transition with a payload carrying two lines for the same
product id yields a state violating the invariant. -/
theorem cartReducer_SET_CART_dup_counterexample :
    nodupPids (CartState.mk []).items ∧
      ¬ nodupPids (cartReducer ⟨[]⟩
          (.SET_CART (some [⟨"p1", 1⟩, ⟨"p1", 1⟩]))).items := by
  exact ⟨by decide, by decide⟩

/-- Claim C3: when `AuthProvider` starts with a persisted bearer token
and the profile fetch fails for any reason, the resulting client state
has the stored token removed, the `Authorization` default header
removed, no in-memory user (signed out), and `loading = false`; the
result is `Except.ok`, i.e. no error is propagated to the caller of
`fetchUser`. -/
theorem authProviderInit_fetch_failure (t err : String) :
    authProviderInit (some t) (.failure err) =
      .ok { storedToken := none, authHeader := none, user := none, loading := false } :=
  rfl

/-- Claim C4: starting from a filter map without key `k`, setting `k` to
a non-empty value and then clearing it (empty control value) returns the
original filter map — the key is deleted rather than kept as an empty
filter — so the next catalog request (which receives exactly this map)
carries no residual key `k`. -/
theorem handleFilterChange_set_then_clear (filters : List (String × String))
    (k v : String) (hk : ∀ kv ∈ filters, kv.1 ≠ k) (hv : v ≠ "") :
    handleFilterChange (handleFilterChange filters k v) k "" = filters ∧
      ∀ kv ∈ handleFilterChange (handleFilterChange filters k v) k "", kv.1 ≠ k := by
  have hany : (filters.any fun kv => kv.1 == k) = false := by
    rw [List.any_eq_false]
    intro kv hkv
    simp [hk kv hkv]
  have h1 : handleFilterChange filters k v = filters ++ [(k, v)] := by
    simp [handleFilterChange, hv, objSet, hany]
  have hall : ∀ kv ∈ filters, (kv.1 != k) = true :=
    fun kv hkv => bne_iff_ne.mpr (hk kv hkv)
  have h2 : handleFilterChange (filters ++ [(k, v)]) k "" = filters := by
    simp [handleFilterChange, objDelete, List.filter_append,
      List.filter_eq_self.mpr hall]
  rw [h1, h2]
  exact ⟨rfl, hk⟩

theorem handleFilterChange_set_then_clear_witness :
    (∀ kv ∈ ([("category", "Gaming")] : List (String × String)), kv.1 ≠ "brand") ∧
      ("Apple" : String) ≠ "" ∧
      handleFilterChange (handleFilterChange [("category", "Gaming")] "brand" "Apple")
          "brand" "" = [("category", "Gaming")] :=
  ⟨by decide, by decide,
    (handleFilterChange_set_then_clear [("category", "Gaming")] "brand" "Apple"
      (by decide) (by decide)).1⟩

/-- Claim C5: the Header's cart counter equals the sum of the quantity
fields over all cart lines, and is 0 for the empty cart. -/
theorem cartItemCount_spec (s : CartState) :
    cartItemCount s = (s.items.map CartItem.quantity).sum ∧
      cartItemCount ⟨[]⟩ = 0 :=
  ⟨by simp [cartItemCount, foldl_add_quantity], rfl⟩

/-- Claim C6: the Home page's featured selection has at most 3 products,
every selected product is flagged featured, the selection is an initial
segment of the featured subsequence of the catalog (the first up-to-three
featured products), and it respects catalog-list order (a subsequence of
the catalog list). -/
theorem featuredProducts_spec (products : List Product) :
    (featuredProducts products).length ≤ 3 ∧
      (∀ p ∈ featuredProducts products, p.featured = true) ∧
      featuredProducts products <+: products.filter (fun p => p.featured) ∧
      (featuredProducts products).Sublist products := by
  refine ⟨?_, ?_, ?_, ?_⟩
  · exact List.length_take_le 3 (products.filter fun p => p.featured)
  · intro p hp
    have hmem : p ∈ products.filter (fun p => p.featured) :=
      List.mem_of_mem_take hp
    exact (List.mem_filter.mp hmem).2
  · exact List.take_prefix 3 _
  · exact (List.take_sublist 3 _).trans (List.filter_sublist _)

theorem featuredProducts_spec_witness :
    (⟨"1", "n", true⟩ : Product) ∈ featuredProducts [⟨"1", "n", true⟩, ⟨"2", "m", false⟩] ∧
      (⟨"1", "n", true⟩ : Product).featured = true :=
  ⟨by decide, (featuredProducts_spec [⟨"1", "n", true⟩, ⟨"2", "m", false⟩]).2.1 _ (by decide)⟩

/-- Claim C7: `register` forwards the submitted form data to the
registration endpoint and returns its response, without establishing a
session: the stored token, the `Authorization` default header, the
in-memory user profile — indeed the whole client auth state — are
unchanged. -/
theorem register_no_session (endpoint : RegisterData → UserProfile)
    (s : AuthState) (userData : RegisterData) :
    (register endpoint s userData).1.storedToken = s.storedToken ∧
      (register endpoint s userData).1.authHeader = s.authHeader ∧
      (register endpoint s userData).1.user = s.user ∧
      (register endpoint s userData).1 = s ∧
      (register endpoint s userData).2 = endpoint userData :=
  ⟨rfl, rfl, rfl, rfl, rfl⟩

/-- Claim C8: an `UPDATE_QUANTITY` action whose `product_id` matches no
cart line leaves the state unchanged — no line added, none changed, no
error signalled (the reducer is total). -/
theorem cartReducer_UPDATE_QUANTITY_absent (s : CartState) (pid : String) (q : Int)
    (h : ∀ it ∈ s.items, it.product_id ≠ pid) :
    cartReducer s (.UPDATE_QUANTITY pid q) = s := by
  have hmap : s.items.map (fun item =>
      if item.product_id == pid then { item with quantity := q } else item) = s.items := by
    have step : ∀ it ∈ s.items,
        (if it.product_id == pid then { it with quantity := q } else it) = it := by
      intro it hit
      have : (it.product_id == pid) = false := beq_eq_false_iff_ne.mpr (h it hit)
      simp [this]
    calc s.items.map (fun item =>
          if item.product_id == pid then { item with quantity := q } else item)
        = s.items.map id := List.map_congr_left step
      _ = s.items := List.map_id _
  cases s with
  | mk items =>
      simp only [cartReducer]
      exact congrArg CartState.mk hmap

theorem cartReducer_UPDATE_QUANTITY_absent_witness :
    (∀ it ∈ ([⟨"a", 1⟩] : List CartItem), it.product_id ≠ "z") ∧
      cartReducer ⟨[⟨"a", 1⟩]⟩ (.UPDATE_QUANTITY "z" 7) = ⟨[⟨"a", 1⟩]⟩ :=
  ⟨by decide, cartReducer_UPDATE_QUANTITY_absent ⟨[⟨"a", 1⟩]⟩ "z" 7 (by decide)⟩

/-- Claim C9: `REMOVE_ITEM` is idempotent — removing the same product id
twice equals removing it once — and removing a product id with no
matching line returns the item list unchanged. -/
theorem cartReducer_REMOVE_ITEM_idem (s : CartState) (pid : String) :
    cartReducer (cartReducer s (.REMOVE_ITEM pid)) (.REMOVE_ITEM pid) =
        cartReducer s (.REMOVE_ITEM pid) ∧
      ((∀ it ∈ s.items, it.product_id ≠ pid) →
        (cartReducer s (.REMOVE_ITEM pid)).items = s.items) := by
  constructor
  · cases s with
    | mk items => simp [cartReducer, List.filter_filter]
  · intro h
    have hall : ∀ it ∈ s.items, (it.product_id != pid) = true :=
      fun it hit => bne_iff_ne.mpr (h it hit)
    simp [cartReducer, List.filter_eq_self.mpr hall]

theorem cartReducer_REMOVE_ITEM_idem_witness :
    (∀ it ∈ ([⟨"a", 1⟩] : List CartItem), it.product_id ≠ "z") ∧
      (cartReducer ⟨[⟨"a", 1⟩]⟩ (.REMOVE_ITEM "z")).items = [⟨"a", 1⟩] :=
  ⟨by decide, (cartReducer_REMOVE_ITEM_idem ⟨[⟨"a", 1⟩]⟩ "z").2 (by decide)⟩

/-- Claim C10: a `SET_CART` action whose payload has no `items` (absent
or null) yields an empty item list, and one carrying an `items` list
yields exactly that list, regardless of the previous state. -/
theorem cartReducer_SET_CART_spec (s : CartState) :
    (cartReducer s (.SET_CART none)).items = [] ∧
      ∀ l, (cartReducer s (.SET_CART (some l))).items = l :=
  ⟨rfl, fun _ => rfl⟩

end TechHaven
